import Mathlib

/-!
Verification of the spotify-running-playlist-maker core against its
natural-language specification.  The Python sources are shallowly embedded:
pure functions become Lean functions, the SQLite tables become explicit list
states, remote calls become explicit outcome parameters, and floats become
rationals.
-/

namespace SpotifyRun

/-! ## Tempo resolver (`src/bpm_providers.py`) -/

/-- The value handed to `normalize_bpm_for_settings`: Python `None`, a numeric
value (modelled as a rational), or a non-null value on which `float()` raises. -/
inductive BpmArg where
  | none : BpmArg
  | val : ℚ → BpmArg
  | nonNumeric : String → BpmArg
deriving DecidableEq

/-- Python 3 `round` on a rational: round half to even (banker's rounding). -/
def pyRound (q : ℚ) : ℤ :=
  let f := ⌊q⌋
  let r := q - f
  if r < 1/2 then f
  else if r > 1/2 then f + 1
  else if f % 2 = 0 then f else f + 1

/-- Embedding of `normalize_bpm_for_settings` (src/bpm_providers.py:138-158).
`floor`/`ceiling`/`allow` stand for `settings.bpm_floor`, `settings.bpm_ceiling`
and `settings.allow_doubled_bpm` (all validated integers / booleans).  The code
reads the bounds through falsy-defaulting, `int(getattr(settings, 'bpm_floor',
0) or 0)` and `int(getattr(settings, 'bpm_ceiling', 1000) or 1000)`, so a zero
`bpm_ceiling` is replaced by 1000 (a zero `bpm_floor` stays 0). -/
def normalize_bpm_for_settings (bpm : BpmArg) (floor ceiling : ℤ) (allow : Bool) :
    Option ℤ × String :=
  match bpm with
  | .none => (Option.none, "missing")
  | .nonNumeric _ => (Option.none, "invalid")
  | .val q =>
    let f : ℤ := if floor = 0 then 0 else floor
    let c : ℤ := if ceiling = 0 then 1000 else ceiling
    if (f : ℚ) ≤ q ∧ q ≤ (c : ℚ) then (some (pyRound q), "exact")
    else if allow = true ∧ (f : ℚ) ≤ q / 2 ∧ q / 2 ≤ (c : ℚ) then
      (some (pyRound (q / 2)), "halved")
    else if allow = true ∧ (f : ℚ) ≤ q * 2 ∧ q * 2 ≤ (c : ℚ) then
      (some (pyRound (q * 2)), "doubled")
    else (Option.none, "out_of_range")

/-- Embedding of the `BpmResult` dataclass (src/bpm_providers.py:22-27). -/
structure BpmResult where
  bpm : Option ℚ
  source : String
  confidence : Option ℚ := Option.none
  notes : String := ""
deriving DecidableEq

/-- A provider, reduced to its one capability `get_bpm(artist_name, track_name)`
(src/bpm_providers.py:30-32).  Every provider returns a `BpmResult`; transport
errors are already converted to a null-bpm result inside the provider. -/
def Provider : Type := String → String → BpmResult

/-- Embedding of `get_bpm_from_providers` (src/bpm_providers.py:130-135).
The Python test is `if res and res.bpm:`, so a bpm of `0.0` is falsy and is
skipped exactly like `None`. -/
def get_bpm_from_providers (providers : List Provider) (a t : String) : Option ℚ :=
  match providers with
  | [] => Option.none
  | p :: ps =>
    match (p a t).bpm with
    | some b => if b = 0 then get_bpm_from_providers ps a t else some b
    | Option.none => get_bpm_from_providers ps a t

/-- A provider result that contributes nothing to the chain: a null bpm, or the
falsy bpm `0.0`. -/
def nullishFor (a t : String) (p : Provider) : Prop :=
  (p a t).bpm = Option.none ∨ (p a t).bpm = some 0

instance (a t : String) (p : Provider) : Decidable (nullishFor a t p) := by
  unfold nullishFor; infer_instance

/-! ## Retry wrapper (`src/main.py`, `get_audio_features_with_retry`) -/

/-- Outcome of one attempt of the remote call: success with a value, a
SpotifyException with http status 429 carrying an optional Retry-After header,
or any other exception. -/
inductive ApiAttempt (α : Type) where
  | ok (value : α)
  | rateLimited (retryAfter : Option ℤ)
  | failed
deriving DecidableEq

/-- How one call of the wrapper ends: the fetched value is returned; or the
`AttributeError` raised while evaluating the first except clause escapes; or
the final `raise Exception(...)` after the while loop fires. -/
inductive RetryOutcome (α : Type) where
  | success (value : α)
  | attrError
  | exhausted
deriving DecidableEq

/-- Observable trace of the wrapper: how it ended, the number of attempts made,
and the sequence of sleep durations performed. -/
structure RetryTrace (α : Type) where
  result : RetryOutcome α
  attempts : ℕ
  sleeps : List ℚ
deriving DecidableEq

/-- Embedding of `get_audio_features_with_retry(track_uris, max_retries=5,
initial_delay=1.0)` (src/main.py:536-562).  The remote call is abstracted into
`behavior`, giving the outcome of each attempt.

The `while retries < max_retries` loop never completes an iteration on a
failure: when the call raises, CPython evaluates the first handler's clause
`settings.spotify.exceptions.SpotifyException` (src/main.py:546), and
`settings.spotify` is a `spotipy.Spotify` instance (src/settings.py:40), which
has no `exceptions` attribute — the lookup raises `AttributeError`, which
propagates out of the whole try statement at once (an exception raised while
matching a clause is not offered to the later `except Exception` clause of the
same try).  So a first-attempt success returns after one attempt, any
first-attempt failure escapes with `AttributeError` after one attempt with no
sleep, and the sleep/backoff/429 code below the clauses, the later iterations,
and the final raise (reachable only with `max_retries = 0`) are dead. -/
def get_audio_features_with_retry {α : Type} (behavior : ℕ → ApiAttempt α)
    (maxRetries : ℕ) (_initialDelay : ℚ) : RetryTrace α :=
  if maxRetries = 0 then ⟨RetryOutcome.exhausted, 0, []⟩
  else
    match behavior 0 with
    | .ok v => ⟨RetryOutcome.success v, 1, []⟩
    | .rateLimited _ => ⟨RetryOutcome.attrError, 1, []⟩
    | .failed => ⟨RetryOutcome.attrError, 1, []⟩

/-! ## Track ledger (`t_tracks` / `t_tracks_in_playlists`, src/settings.py:128-137) -/

/-- A row of `t_tracks`: URI and name are UNIQUE, `track_bpm` is nullable, and
`track_order INT NOT NULL DEFAULT (random())` holds the SQLite `random()` draw
made at insertion time. -/
structure TrackRow where
  rowid : ℕ
  track_uri : String
  track_name : String
  track_bpm : Option ℤ
  track_order : ℤ
deriving DecidableEq

/-- A row of `t_tracks_in_playlists` (a membership fact). -/
structure MembershipRow where
  playlist_id : ℕ
  track_id : ℕ
deriving DecidableEq

def bpmTag : Option ℤ → ℕ
  | Option.none => 0
  | some _ => 1

def bpmVal : Option ℤ → ℤ
  | Option.none => 0
  | some b => b

/-- The `ORDER BY track_bpm ASC, track_order ASC` key of the drain query
(src/main.py:452-457): bpm ascending with SQL NULLs first, ties broken by the
`track_order` column. -/
def rowLe (a b : TrackRow) : Prop :=
  bpmTag a.track_bpm < bpmTag b.track_bpm ∨
    (bpmTag a.track_bpm = bpmTag b.track_bpm ∧
      (bpmVal a.track_bpm < bpmVal b.track_bpm ∨
        (bpmVal a.track_bpm = bpmVal b.track_bpm ∧ a.track_order ≤ b.track_order)))

instance : DecidableRel rowLe := by
  unfold rowLe; infer_instance

def insertRow (x : TrackRow) : List TrackRow → List TrackRow
  | [] => [x]
  | y :: ys => if rowLe x y then x :: y :: ys else y :: insertRow x ys

/-- The ORDER BY of the drain query, realised as an insertion sort (names and
orders need not be distinct, so any sort compatible with `rowLe` models it). -/
def sortRows : List TrackRow → List TrackRow
  | [] => []
  | x :: xs => insertRow x (sortRows xs)

/-- `EXISTS (SELECT 1 FROM t_tracks_in_playlists p WHERE t.ROWID = p.track_id)`. -/
def hasMembership (mems : List MembershipRow) (t : TrackRow) : Bool :=
  mems.any (fun m => m.track_id == t.rowid)

/-- The drain query of src/main.py:452-457: all tracks without any membership
fact, ordered by `(track_bpm ASC, track_order ASC)`. -/
def unassignedRows (tracks : List TrackRow) (mems : List MembershipRow) : List TrackRow :=
  sortRows (tracks.filter (fun t => !(hasMembership mems t)))

/-- The in-memory SQLite database, reduced to the two tables the drain touches,
plus the next ROWID to allocate. -/
structure TrackStore where
  tracks : List TrackRow
  mems : List MembershipRow
  nextId : ℕ
deriving DecidableEq

def emptyStore : TrackStore := ⟨[], [], 1⟩

/-- The guarded insert of src/main.py:410-417:
`INSERT OR IGNORE INTO t_tracks ... WHERE NOT EXISTS (SELECT * FROM t_tracks
WHERE track_name = ?)`.  The NOT EXISTS clause drops the row when the name is
already taken; OR IGNORE additionally drops it on a `track_uri` UNIQUE
violation.  `rnd` is the `random()` default drawn for `track_order`. -/
def insertMatchedTrack (s : TrackStore) (uri name : String) (bpm : ℤ) (rnd : ℤ) :
    TrackStore :=
  if s.tracks.any (fun t => t.track_name == name) then s
  else if s.tracks.any (fun t => t.track_uri == uri) then s
  else
    { tracks := s.tracks ++ [⟨s.nextId, uri, name, some bpm, rnd⟩],
      mems := s.mems, nextId := s.nextId + 1 }

/-! ## Target-playlist selection (`src/playlists.py`, `get_next_target_playlist`) -/

/-- A row of `t_playlists` as far as target selection reads it. -/
structure PlaylistRow where
  uri : String
  name : String
  is_target : Bool
deriving DecidableEq

/-- SQLite binary collation on TEXT, on the underlying character lists. -/
def charListLe : List Char → List Char → Bool
  | [], _ => true
  | _ :: _, [] => false
  | c :: cs, d :: ds =>
    if c.toNat < d.toNat then true
    else if d.toNat < c.toNat then false
    else charListLe cs ds

def strLe (a b : String) : Bool := charListLe a.data b.data

def insertByName (p : String × String) : List (String × String) → List (String × String)
  | [] => [p]
  | q :: qs => if strLe p.2 q.2 then p :: q :: qs else q :: insertByName p qs

/-- The `ORDER BY new ASC, playlist_name ASC` of the candidate query
(src/playlists.py:136-140), restricted to the existing-target rows (the
create-new sentinel, `new = 1`, always sorts last and is the base case of
`walkTargets`). -/
def sortByName : List (String × String) → List (String × String)
  | [] => []
  | p :: ps => insertByName p (sortByName ps)

/-- Two-digit part formatting: Python `"{:02d}".format(n)`. -/
def fmt2 (n : ℕ) : String := if n < 10 then "0" ++ toString n else toString n

/-- The name given to a playlist created at the sentinel
(src/playlists.py:147-148): the configured target name, suffixed with
a part number when the walk has passed `n > 0` existing target playlists. -/
def partSuffix (target : String) (n : ℕ) : String :=
  target ++ (if n > 0 then " part " ++ fmt2 n else "")

/-- The candidate walk of `get_next_target_playlist` (src/playlists.py:136-171).
Arguments: the accumulated `number_of_playlists` count `n` and the
`bookmark_found` flag; the returned Bool records whether a playlist was created
(the sentinel row, uri NULL, reached). -/
def walkTargets (bookmark freshUri target : String) :
    List (String × String) → ℕ → Bool → String × String × Bool
  | [], n, _ => (freshUri, partSuffix target n, true)
  | (uri, name) :: rest, n, found =>
    let found' := found || (uri == bookmark)
    if bookmark == "" then (uri, name, false)
    else if found' && uri != bookmark then (uri, name, false)
    else walkTargets bookmark freshUri target rest (n + 1) found'

/-- Embedding of `get_next_target_playlist(settings, target_playlist,
bookmark_uri)` (src/playlists.py:124-171).  `freshUri` is the URI the remote
`user_playlist_create` would return if the sentinel is reached. -/
def get_next_target_playlist (target bookmark freshUri : String)
    (store : List PlaylistRow) : String × String × Bool :=
  walkTargets bookmark freshUri target
    (sortByName ((store.filter (fun p => p.is_target)).map (fun p => (p.uri, p.name)))) 0 false

/-! ## Batch flush (`src/playlists.py`, `add_playlist_tracks`) -/

/-- Whether the single `playlist_add_items` call inside `add_playlist_tracks`
succeeds or raises. -/
inductive WriteOutcome where
  | ok
  | failure
deriving DecidableEq

/-- Observable behaviour of one `add_playlist_tracks` call: whether an
exception escaped, how many retry attempts of the write were made, the sleeps
performed, whether the tracks actually landed in the remote playlist, and the
count printed by the closing "successfully added" message. -/
structure AddTracksResult where
  raised : Bool
  retryAttempts : ℕ
  sleeps : List ℕ
  remoteWritten : Bool
  reportedCount : ℕ
deriving DecidableEq

/-- Embedding of `add_playlist_tracks` (src/playlists.py:174-195): the write is
attempted once inside try/except; on failure the handler prints, sleeps 5
seconds and falls through — it performs no retry, raises nothing, and the
function still reports the batch as successfully added. -/
def add_playlist_tracks : WriteOutcome → List String → AddTracksResult
  | .ok, tracks => ⟨false, 0, [], true, tracks.length⟩
  | .failure, tracks => ⟨false, 0, [5], false, tracks.length⟩

/-! ## Distribution drain (`src/main.py:464-525`) -/

/-- The `while tracks_saved >= settings.max_tracks_per_playlist` loop of
src/main.py:508-516: walk successive next targets (their pre-existing track
counts given by `supply`) until one is under the cap; an exhausted supply means
a freshly created playlist, which has 0 tracks. -/
def pickTarget (maxPer : ℕ) : List ℕ → ℕ × List ℕ
  | [] => (0, [])
  | c :: rest => if maxPer ≤ c then pickTarget maxPer rest else (c, rest)

/-- The mutable state of the drain loop: `pending` is `my_tracks`, `flushed`
the batches handed to `add_playlist_tracks` in order, `overall` is
`track_count_overall`, `inPl` is `track_count_in_playlist`, `saved` is
`tracks_saved` for the current target, `supply` the remaining next targets. -/
structure DrainState where
  pending : List String
  flushed : List (List String)
  overall : ℕ
  inPl : ℕ
  saved : ℕ
  supply : List ℕ
deriving DecidableEq

/-- The `for row in rows` drain loop of src/main.py:469-525, decisions checked
in the source's priority order: global cap (`==`), per-playlist cap, API batch
ceiling; a for-else flush of the remainder on normal exhaustion. -/
def drainGo (maxSave maxPer apiLimit : ℕ) : List String → DrainState → DrainState
  | [], st =>
    if st.pending.isEmpty then st
    else { st with pending := [], flushed := st.flushed ++ [st.pending] }
  | r :: rs, st =>
    let pending := st.pending ++ [r]
    let overall := st.overall + 1
    let inPl := st.inPl + 1
    if overall = maxSave then
      { st with pending := [], flushed := st.flushed ++ [pending],
                overall := overall, inPl := inPl }
    else if maxPer ≠ 0 ∧ maxPer ≤ inPl + st.saved then
      let ns := pickTarget maxPer st.supply
      drainGo maxSave maxPer apiLimit rs
        { pending := [], flushed := st.flushed ++ [pending], overall := overall,
          inPl := 0, saved := ns.1, supply := ns.2 }
    else if pending.length = apiLimit then
      drainGo maxSave maxPer apiLimit rs
        { st with pending := [], flushed := st.flushed ++ [pending],
                  overall := overall, inPl := inPl }
    else
      drainGo maxSave maxPer apiLimit rs
        { st with pending := pending, overall := overall, inPl := inPl }

/-- The whole drain with the source's fixed `my_api_limit = 95`
(src/main.py:450), starting from an empty batch and zero counters. -/
def drainRun (maxSave maxPer saved0 : ℕ) (supply : List ℕ) (rows : List String) :
    DrainState :=
  drainGo maxSave maxPer 95 rows ⟨[], [], 0, 0, saved0, supply⟩

/-! ## Artist discovery, stages A and B (`src/main.py`, `discover_artists_for_genre`) -/

/-- Python `uri.split(':')` on the character level (`String.splitOn` does not
reduce in the kernel). -/
def splitChars (sep : Char) : List Char → List (List Char)
  | [] => [[]]
  | c :: rest =>
    match splitChars sep rest with
    | [] => [[c]]
    | g :: gs => if c = sep then [] :: g :: gs else (c :: g) :: gs

def splitStr (sep : Char) (s : String) : List String :=
  (splitChars sep s.data).map String.mk

/-- `artist['uri'].split(':')[-1]` — the id under which stage A stores an
artist. -/
def lastSeg (s : String) : String := (splitStr ':' s).getLastD ""

/-- The dedup dictionary `discovered_artists_by_id`: id-keyed, later writes
overwrite the stored (name, uri) pair. -/
abbrev Dict : Type := List (String × String × String)

def upsert (d : Dict) (key : String) (v : String × String) : Dict :=
  if d.any (fun e => e.1 == key) then
    d.map (fun e => if e.1 == key then (key, v) else e)
  else d ++ [(key, v)]

/-- Stage A's per-market insertion loop over returned artist items
(name, uri pairs), src/main.py:54-56. -/
def insertArtists (d : Dict) (items : List (String × String)) : Dict :=
  items.foldl (fun d it => upsert d (lastSeg it.2) (it.1, it.2)) d

/-- Stage A (src/main.py:49-63): walk the candidate markets; an exception
(`search m = Option.none`) is caught and treated as zero results; break at the
first market whose item list is nonempty. -/
def stageA (search : String → Option (List (String × String))) :
    List String → Dict → Dict
  | [], d => d
  | m :: ms, d =>
    match search m with
    | Option.none => stageA search ms d
    | some items =>
      let d' := insertArtists d items
      if items.isEmpty then stageA search ms d' else d'

/-- One artist credit on a returned track: the optional `id`, optional `uri`
and optional `name` fields of the JSON object. -/
structure ArtistCredit where
  id : Option String
  uri : Option String
  name : Option String
deriving DecidableEq

/-- The credit-acceptance rule of stage B (src/main.py:76-90): prefer `id`
(synthesising the uri when absent), else a well-formed 3-part artist uri,
else skip. -/
def acceptCredit (c : ArtistCredit) : Option (String × String × String) :=
  match c.id with
  | some i => some (i, c.name.getD "(unknown)", (c.uri).getD ("spotify:artist:" ++ i))
  | Option.none =>
    match c.uri with
    | some u =>
      let parts := splitStr ':' u
      if parts.length = 3 ∧ parts.get? 1 = some "artist" then
        some (parts.getLastD "", c.name.getD "(unknown)", u)
      else Option.none
    | Option.none => Option.none

def addCredits (d : Dict) (tracks : List (List ArtistCredit)) : Dict :=
  tracks.foldl
    (fun d credits =>
      credits.foldl
        (fun d c =>
          match acceptCredit c with
          | some (i, nm, u) => upsert d i (nm, u)
          | Option.none => d) d) d

/-- Stage B's pagination loop (src/main.py:66-97), counting every call to the
track search.  `trackPage p = Option.none` models an exception, which aborts
the whole stage (the try wraps the loop); an empty page breaks the loop. -/
def stageBGo (trackPage : ℕ → Option (List (List ArtistCredit))) :
    ℕ → ℕ → Dict → ℕ → Dict × ℕ
  | 0, _, d, calls => (d, calls)
  | fuel + 1, pageIdx, d, calls =>
    match trackPage pageIdx with
    | Option.none => (d, calls + 1)
    | some [] => (d, calls + 1)
    | some tracks => stageBGo trackPage fuel (pageIdx + 1) (addCredits d tracks) (calls + 1)

/-- Stages A and B of `discover_artists_for_genre` (src/main.py:48-97) with the
number of track-search calls made by stage B; stage B runs only when stage A
left the dedup dictionary empty (`if not discovered_artists_by_id`). -/
def discoverAB (search : String → Option (List (String × String)))
    (trackPage : ℕ → Option (List (List ArtistCredit)))
    (markets : List String) (maxTrackPages : ℕ) : Dict × ℕ :=
  let d := stageA search markets []
  if d.isEmpty then stageBGo trackPage maxTrackPages 0 d 0 else (d, 0)

/-! ## Concrete instances used in witnesses and counterexamples -/

/-- A provider that always reports no bpm (the AcousticBrainz stub). -/
def providerNone : Provider := fun _ _ => ⟨Option.none, "AcousticBrainz", Option.none, "not implemented"⟩

/-- A provider that reports a bpm of 0.0 (non-null but falsy in Python). -/
def providerZero : Provider := fun _ _ => ⟨some 0, "GetSongBPM", Option.none, ""⟩

/-- A provider that reports a bpm of 128.0. -/
def provider128 : Provider := fun _ _ => ⟨some 128, "GetSongBPM", Option.none, ""⟩

/-- A remote call that fails transiently on attempts 0, 1, 2 and succeeds on
attempt 3. -/
def retryDemoBehavior : ℕ → ApiAttempt ℕ := fun i => if i < 3 then .failed else .ok 7

/-- A remote call that always fails transiently. -/
def retryFailBehavior : ℕ → ApiAttempt ℕ := fun _ => .failed

/-- Two matched tracks with equal bpm recorded in discovery order a, b; the
SQLite `random()` draws for `track_order` came out as 5 then 3. -/
def demoTrackStore : TrackStore :=
  insertMatchedTrack
    (insertMatchedTrack emptyStore "spotify:track:a" "Song A" 130 5)
    "spotify:track:b" "Song B" 130 3

/-- A playlist table with two target playlists (stored unsorted) and one
non-target playlist. -/
def demoPlaylists : List PlaylistRow :=
  [⟨"spotify:playlist:b", "T b", true⟩,
   ⟨"spotify:playlist:x", "Other", false⟩,
   ⟨"spotify:playlist:a", "T a", true⟩]

/-- An artist search that finds one artist in market BE and nothing elsewhere. -/
def demoSearch : String → Option (List (String × String)) :=
  fun m => if m = "BE" then some [("Artist One", "spotify:artist:1")] else some []

/-- A track search whose pages are all empty. -/
def demoTrackPage : ℕ → Option (List (List ArtistCredit)) := fun _ => some []

/-! ## Theorems -/

/-- Claim C1 (code bug): the spec requires a failed flush to be retried via the
bounded-retry wrapper, surfacing RetryExhausted after maxRetries failures with
the pending batch intact.  The code's `add_playlist_tracks` instead catches the
failed `playlist_add_items` call, sleeps 5 seconds in an ad-hoc handler that
even prints "then retrying", performs zero retries, raises nothing, and still
reports the batch as successfully added — after which the caller clears the
batch, silently dropping the queued tracks.  This theorem evaluates the
embedded code at the failing input. -/
theorem add_playlist_tracks_swallows_failed_flush :
    add_playlist_tracks WriteOutcome.failure ["spotify:track:t1"] =
      ⟨false, 0, [5], false, 1⟩ := rfl

/-- Claim C3 (amended): for every range floor ≤ ceiling with ceiling ≠ 0 — a
falsy (zero) ceiling is first replaced by the default 1000 through the code's
`or 1000` — `normalize` returns (null,"missing") on null tempo; (round(t),
"exact") when floor ≤ t ≤ ceiling; else, with doubling allowed, (round(t/2),
"halved") when t/2 is in range — checked before doubling — then (round(2t),
"doubled") when 2t is in range; else (null,"out_of_range"); and the spec's
concrete table for floor=120, ceiling=140, allowDoubling=true holds. -/
theorem normalize_bpm_spec (floor ceiling : ℤ) (allow : Bool) (q : ℚ)
    (hrange : floor ≤ ceiling) (hcz : ceiling ≠ 0) :
    normalize_bpm_for_settings BpmArg.none floor ceiling allow = (Option.none, "missing")
    ∧ ((floor : ℚ) ≤ q ∧ q ≤ (ceiling : ℚ) →
        normalize_bpm_for_settings (BpmArg.val q) floor ceiling allow =
          (some (pyRound q), "exact"))
    ∧ (¬((floor : ℚ) ≤ q ∧ q ≤ (ceiling : ℚ)) → allow = true →
        (floor : ℚ) ≤ q / 2 ∧ q / 2 ≤ (ceiling : ℚ) →
        normalize_bpm_for_settings (BpmArg.val q) floor ceiling allow =
          (some (pyRound (q / 2)), "halved"))
    ∧ (¬((floor : ℚ) ≤ q ∧ q ≤ (ceiling : ℚ)) → allow = true →
        ¬((floor : ℚ) ≤ q / 2 ∧ q / 2 ≤ (ceiling : ℚ)) →
        (floor : ℚ) ≤ q * 2 ∧ q * 2 ≤ (ceiling : ℚ) →
        normalize_bpm_for_settings (BpmArg.val q) floor ceiling allow =
          (some (pyRound (q * 2)), "doubled"))
    ∧ (¬((floor : ℚ) ≤ q ∧ q ≤ (ceiling : ℚ)) →
        (allow = false ∨ (¬((floor : ℚ) ≤ q / 2 ∧ q / 2 ≤ (ceiling : ℚ)) ∧
          ¬((floor : ℚ) ≤ q * 2 ∧ q * 2 ≤ (ceiling : ℚ)))) →
        normalize_bpm_for_settings (BpmArg.val q) floor ceiling allow =
          (Option.none, "out_of_range"))
    ∧ normalize_bpm_for_settings (BpmArg.val 130) 120 140 true = (some 130, "exact")
    ∧ normalize_bpm_for_settings (BpmArg.val 260) 120 140 true = (some 130, "halved")
    ∧ normalize_bpm_for_settings (BpmArg.val 65) 120 140 true = (some 130, "doubled")
    ∧ normalize_bpm_for_settings (BpmArg.val 300) 120 140 true =
        (Option.none, "out_of_range")
    ∧ normalize_bpm_for_settings BpmArg.none 120 140 true = (Option.none, "missing") := by
  have hfl : (if floor = 0 then (0 : ℤ) else floor) = floor := by
    rcases eq_or_ne floor 0 with h | h <;> simp [h]
  have hcl : (if ceiling = 0 then (1000 : ℤ) else ceiling) = ceiling := if_neg hcz
  refine ⟨rfl, ?_, ?_, ?_, ?_, ?_, ?_, ?_, ?_, rfl⟩
  · intro h
    simp only [normalize_bpm_for_settings, hfl, hcl]
    rw [if_pos h]
  · intro hne ha hh
    simp only [normalize_bpm_for_settings, hfl, hcl]
    rw [if_neg hne, if_pos ⟨ha, hh⟩]
  · intro hne ha hnh hd
    simp only [normalize_bpm_for_settings, hfl, hcl]
    rw [if_neg hne, if_neg (fun hc => hnh hc.2), if_pos ⟨ha, hd⟩]
  · intro hne hrest
    simp only [normalize_bpm_for_settings, hfl, hcl]
    rw [if_neg hne]
    rcases hrest with hfalse | ⟨hnh, hnd⟩
    · rw [if_neg (fun hc => by simp [hfalse] at hc),
        if_neg (fun hc => by simp [hfalse] at hc)]
    · rw [if_neg (fun hc => hnh hc.2), if_neg (fun hc => hnd hc.2)]
  · norm_num [normalize_bpm_for_settings, pyRound]
  · norm_num [normalize_bpm_for_settings, pyRound]
  · norm_num [normalize_bpm_for_settings, pyRound]
  · norm_num [normalize_bpm_for_settings]

/-- Witness for C3': the spec's range 120–140 (nonzero ceiling) with doubling,
applied at the table's concrete tempos through the theorem. -/
theorem normalize_bpm_spec_witness :
    ((120 : ℤ) ≤ 140 ∧ (140 : ℤ) ≠ 0)
    ∧ normalize_bpm_for_settings (BpmArg.val 130) 120 140 true = (some 130, "exact")
    ∧ normalize_bpm_for_settings (BpmArg.val 260) 120 140 true = (some 130, "halved") := by
  have h := normalize_bpm_spec 120 140 true 130 (by norm_num) (by norm_num)
  have h' := normalize_bpm_spec 120 140 true 260 (by norm_num) (by norm_num)
  refine ⟨by norm_num, ?_, ?_⟩
  · have := h.2.1 (by norm_num)
    rw [this]
    norm_num [pyRound]
  · have := h'.2.2.1 (by norm_num) rfl (by norm_num)
    rw [this]
    norm_num [pyRound]

/-- Counterexample to claim C3 as stated: with floor = 0, ceiling = 0 — a range
satisfying floor ≤ ceiling — the code's `or 1000` replaces the falsy ceiling by
1000, so tempo 150 normalizes to (150, "exact") where the claim asserts
(null, "out_of_range"). -/
theorem normalize_zero_ceiling_counterexample :
    normalize_bpm_for_settings (BpmArg.val 150) 0 0 true = (some 150, "exact")
    ∧ ((some 150, "exact") : Option ℤ × String) ≠ (Option.none, "out_of_range") := by
  constructor
  · norm_num [normalize_bpm_for_settings, pyRound]
  · simp

/-- Claim C10: a non-null tempo on which `float()` raises yields
(null, "invalid") without raising — a status outside the spec's enumerated
set. -/
theorem normalize_invalid_status (s : String) (floor ceiling : ℤ) (allow : Bool) :
    normalize_bpm_for_settings (BpmArg.nonNumeric s) floor ceiling allow =
      (Option.none, "invalid")
    ∧ "invalid" ∉ ["missing", "exact", "halved", "doubled", "out_of_range"] :=
  ⟨rfl, by decide⟩

/-- Counterexample to claim C9 as stated: a provider returning the non-null
tempo 0.0 is skipped by the truthiness test `if res and res.bpm:`, so the chain
returns null even though a provider yielded a non-null tempo. -/
theorem bpm_chain_zero_counterexample :
    (providerZero "a" "t").bpm = some 0
    ∧ get_bpm_from_providers [providerZero] "a" "t" = Option.none := by
  refine ⟨rfl, ?_⟩
  norm_num [get_bpm_from_providers, providerZero]

/-- Claim C9 (amended): the chain returns null exactly when every provider
yields a null or zero tempo, and a returned tempo is nonzero and comes from the
first provider whose result is neither null nor zero (providers are consulted
strictly in list order). -/
theorem bpm_chain_first_usable (ps : List Provider) (a t : String) :
    (get_bpm_from_providers ps a t = Option.none ↔ ∀ p ∈ ps, nullishFor a t p)
    ∧ (∀ b : ℚ, get_bpm_from_providers ps a t = some b →
        b ≠ 0 ∧ ∃ pre p post, ps = pre ++ p :: post ∧
          (∀ q ∈ pre, nullishFor a t q) ∧ (p a t).bpm = some b) := by
  induction ps with
  | nil =>
    constructor
    · simp [get_bpm_from_providers]
    · intro b h
      simp [get_bpm_from_providers] at h
  | cons p ps ih =>
    have step_of_nullish : nullishFor a t p →
        get_bpm_from_providers (p :: ps) a t = get_bpm_from_providers ps a t := by
      intro hn
      rcases hn with hn | hn <;> simp [get_bpm_from_providers, hn]
    cases hpb : (p a t).bpm with
    | none =>
      have hn : nullishFor a t p := Or.inl hpb
      have hstep := step_of_nullish hn
      constructor
      · rw [hstep, ih.1, List.forall_mem_cons]
        exact ⟨fun h => ⟨hn, h⟩, fun h => h.2⟩
      · intro b h
        rw [hstep] at h
        obtain ⟨hb0, pre, p', post, hsplit, hpre, hbpm⟩ := ih.2 b h
        refine ⟨hb0, p :: pre, p', post, by rw [hsplit]; simp, ?_, hbpm⟩
        intro q hq
        rcases List.mem_cons.mp hq with rfl | hq
        · exact hn
        · exact hpre q hq
    | some b0 =>
      by_cases h0 : b0 = 0
      · subst h0
        have hn : nullishFor a t p := Or.inr hpb
        have hstep := step_of_nullish hn
        constructor
        · rw [hstep, ih.1, List.forall_mem_cons]
          exact ⟨fun h => ⟨hn, h⟩, fun h => h.2⟩
        · intro b h
          rw [hstep] at h
          obtain ⟨hb0, pre, p', post, hsplit, hpre, hbpm⟩ := ih.2 b h
          refine ⟨hb0, p :: pre, p', post, by rw [hsplit]; simp, ?_, hbpm⟩
          intro q hq
          rcases List.mem_cons.mp hq with rfl | hq
          · exact hn
          · exact hpre q hq
      · have hstep : get_bpm_from_providers (p :: ps) a t = some b0 := by
          simp [get_bpm_from_providers, hpb, h0]
        constructor
        · rw [hstep]
          constructor
          · intro h; cases h
          · intro hall
            exfalso
            rcases hall p (List.mem_cons_self p ps) with hn | hn
            · rw [hpb] at hn; cases hn
            · rw [hpb] at hn
              exact h0 (by injection hn)
        · intro b h
          rw [hstep] at h
          have hb : b0 = b := by injection h
          subst hb
          exact ⟨h0, [], p, ps, rfl, by simp, hpb⟩

/-- Witness for C9': a chain of a null provider, a zero provider and a
128-bpm provider returns 128, which the theorem locates as the first usable
result. -/
theorem bpm_chain_first_usable_witness :
    get_bpm_from_providers [providerNone, providerZero, provider128] "a" "t" = some 128
    ∧ ((128 : ℚ) ≠ 0 ∧ ∃ pre p post,
        [providerNone, providerZero, provider128] = pre ++ p :: post ∧
        (∀ q ∈ pre, nullishFor "a" "t" q) ∧ (p "a" "t").bpm = some 128) := by
  have hc : get_bpm_from_providers [providerNone, providerZero, provider128] "a" "t" =
      some 128 := by
    norm_num [get_bpm_from_providers, providerNone, providerZero, provider128]
  exact ⟨hc, (bpm_chain_first_usable [providerNone, providerZero, provider128] "a" "t").2
    128 hc⟩

/-- Claim C5 (code bug): the spec's retry contract (backoff d, 2d, 4d, ...;
Retry-After + 5 on a 429; RetryExhausted after exactly maxRetries attempts;
never raising before exhaustion) is what the wrapper's body was written to do,
but the except dispatch is broken: `settings.spotify.exceptions` does not exist
on a `spotipy.Spotify` instance, so evaluating the clause raises
`AttributeError` that escapes on the first failed attempt — no sleep, no retry,
no RetryExhausted.  This theorem evaluates the embedded code at the failing
inputs: three-transient-failures-then-success escapes with `AttributeError`
after one attempt instead of succeeding after four, an always-failing call
escapes the same way instead of exhausting after five, and only a
first-attempt success returns normally. -/
theorem retry_wrapper_collapses_on_first_failure :
    get_audio_features_with_retry retryDemoBehavior 5 1 =
      ⟨RetryOutcome.attrError, 1, []⟩
    ∧ get_audio_features_with_retry retryFailBehavior 5 1 =
      ⟨RetryOutcome.attrError, 1, []⟩
    ∧ get_audio_features_with_retry (fun _ => ApiAttempt.ok 42) 5 1 =
      ⟨RetryOutcome.success 42, 1, []⟩ :=
  ⟨rfl, rfl, rfl⟩


theorem rowLe_total (a b : TrackRow) : rowLe a b ∨ rowLe b a := by
  unfold rowLe
  omega

theorem rowLe_trans (a b c : TrackRow) : rowLe a b → rowLe b c → rowLe a c := by
  unfold rowLe
  omega

theorem insertRow_perm (x : TrackRow) (l : List TrackRow) :
    (insertRow x l).Perm (x :: l) := by
  induction l with
  | nil => exact List.Perm.refl _
  | cons y ys ih =>
    simp only [insertRow]
    by_cases h : rowLe x y
    · rw [if_pos h]
    · rw [if_neg h]
      exact (ih.cons y).trans (List.Perm.swap x y ys)

theorem sortRows_perm (l : List TrackRow) : (sortRows l).Perm l := by
  induction l with
  | nil => exact List.Perm.refl _
  | cons x xs ih =>
    exact (insertRow_perm x (sortRows xs)).trans (ih.cons x)

theorem insertRow_pairwise (x : TrackRow) (l : List TrackRow)
    (h : List.Pairwise rowLe l) : List.Pairwise rowLe (insertRow x l) := by
  induction l with
  | nil => simp [insertRow]
  | cons y ys ih =>
    obtain ⟨hy, hys⟩ := List.pairwise_cons.mp h
    simp only [insertRow]
    by_cases hxy : rowLe x y
    · rw [if_pos hxy]
      refine List.pairwise_cons.mpr ⟨?_, h⟩
      intro z hz
      rcases List.mem_cons.mp hz with rfl | hz
      · exact hxy
      · exact rowLe_trans x y z hxy (hy z hz)
    · rw [if_neg hxy]
      have hyx : rowLe y x := (rowLe_total x y).resolve_left hxy
      refine List.pairwise_cons.mpr ⟨?_, ih hys⟩
      intro z hz
      have hz' : z = x ∨ z ∈ ys :=
        List.mem_cons.mp ((insertRow_perm x ys).mem_iff.mp hz)
      rcases hz' with rfl | hz'
      · exact hyx
      · exact hy z hz'

theorem sortRows_pairwise (l : List TrackRow) : List.Pairwise rowLe (sortRows l) := by
  induction l with
  | nil => exact List.Pairwise.nil
  | cons x xs ih => exact insertRow_pairwise x (sortRows xs) ih

/-- Claim C2 (amended): the sequence handed to the drain contains exactly the
recorded tracks with zero membership facts, ordered by resolved tempo ascending
(SQL NULLs first) with ties broken by the `track_order` column — which holds
the SQLite `random()` value drawn at insertion, not the discovery order. -/
theorem unassigned_tracks_sorted_perm (tracks : List TrackRow)
    (mems : List MembershipRow) :
    (unassignedRows tracks mems).Perm
      (tracks.filter (fun t => !(hasMembership mems t)))
    ∧ List.Pairwise rowLe (unassignedRows tracks mems) :=
  ⟨sortRows_perm _, sortRows_pairwise _⟩

/-- Counterexample to claim C2 as stated: two tracks recorded in discovery
order a, b with equal tempo 130 whose `random()` draws came out 5 then 3 are
drained in the order b, a — not in discovery order. -/
theorem unassigned_random_order_counterexample :
    (unassignedRows demoTrackStore.tracks demoTrackStore.mems).map
      (fun t => t.track_uri) = ["spotify:track:b", "spotify:track:a"]
    ∧ demoTrackStore.tracks.map (fun t => t.track_uri) =
      ["spotify:track:a", "spotify:track:b"]
    ∧ (["spotify:track:b", "spotify:track:a"] : List String) ≠
      ["spotify:track:a", "spotify:track:b"] := by
  refine ⟨?_, ?_, by decide⟩ <;> decide

/-- Claim C7: inserting (URI=A, name=X) and then (URI=B, name=X) with B ≠ A
into a store that holds neither name X nor URI A leaves the second insertion
dropped, exactly one track named X in the store, and at most one track named X
in the unassigned-tracks sequence for any membership state. -/
theorem name_collision_excluded (s : TrackStore) (A B X : String)
    (b1 b2 r1 r2 : ℤ)
    (hX : ∀ t ∈ s.tracks, t.track_name ≠ X)
    (hA : ∀ t ∈ s.tracks, t.track_uri ≠ A)
    (hAB : B ≠ A) :
    insertMatchedTrack (insertMatchedTrack s A X b1 r1) B X b2 r2 =
      insertMatchedTrack s A X b1 r1
    ∧ ((insertMatchedTrack s A X b1 r1).tracks.filter
        (fun t => t.track_name == X)).length = 1
    ∧ ((unassignedRows (insertMatchedTrack s A X b1 r1).tracks
        (insertMatchedTrack s A X b1 r1).mems).filter
        (fun t => t.track_name == X)).length ≤ 1 := by
  have hnameAny : s.tracks.any (fun t => t.track_name == X) = false := by
    rw [List.any_eq_false]
    intro t ht
    simp [hX t ht]
  have huriAny : s.tracks.any (fun t => t.track_uri == A) = false := by
    rw [List.any_eq_false]
    intro t ht
    simp [hA t ht]
  have h1 : insertMatchedTrack s A X b1 r1 =
      { tracks := s.tracks ++ [⟨s.nextId, A, X, some b1, r1⟩],
        mems := s.mems, nextId := s.nextId + 1 } := by
    rw [insertMatchedTrack, if_neg (by simp [hnameAny]), if_neg (by simp [huriAny])]
  have hfilter : (insertMatchedTrack s A X b1 r1).tracks.filter
      (fun t => t.track_name == X) = [⟨s.nextId, A, X, some b1, r1⟩] := by
    rw [h1]
    simp only [List.filter_append]
    rw [List.filter_eq_nil_iff.mpr (by intro t ht; simp [hX t ht])]
    simp
  refine ⟨?_, ?_, ?_⟩
  · rw [insertMatchedTrack, if_pos]
    rw [h1]
    simp
  · rw [hfilter]
    rfl
  · have hperm := (unassigned_tracks_sorted_perm
      (insertMatchedTrack s A X b1 r1).tracks
      (insertMatchedTrack s A X b1 r1).mems).1
    rw [← List.countP_eq_length_filter, hperm.countP_eq, List.countP_filter]
    have hle : List.countP
        (fun t => (t.track_name == X) && !(hasMembership
          (insertMatchedTrack s A X b1 r1).mems t))
        (insertMatchedTrack s A X b1 r1).tracks ≤
        List.countP (fun t => t.track_name == X)
          (insertMatchedTrack s A X b1 r1).tracks :=
      List.countP_mono_left (fun t _ ht => ((Bool.and_eq_true _ _).mp ht).1)
    have heq : List.countP (fun t => t.track_name == X)
        (insertMatchedTrack s A X b1 r1).tracks = 1 := by
      rw [List.countP_eq_length_filter, hfilter]
      rfl
    exact le_trans hle (le_of_eq heq)

/-- Witness for C7: the concrete collision (URI a, "X") then (URI b, "X") on an
empty store. -/
theorem name_collision_excluded_witness :
    insertMatchedTrack (insertMatchedTrack emptyStore "spotify:track:a" "X" 130 1)
        "spotify:track:b" "X" 131 2 =
      insertMatchedTrack emptyStore "spotify:track:a" "X" 130 1
    ∧ ((insertMatchedTrack emptyStore "spotify:track:a" "X" 130 1).tracks.filter
        (fun t => t.track_name == "X")).length = 1 := by
  have h := name_collision_excluded emptyStore "spotify:track:a" "spotify:track:b"
    "X" 130 131 1 2
    (by intro t ht; simp [emptyStore] at ht)
    (by intro t ht; simp [emptyStore] at ht)
    (by decide)
  exact ⟨h.1, h.2.1⟩

/-- With an empty bookmark the walk stops at the first existing target row. -/
theorem walk_empty_bookmark (freshUri target u v : String)
    (rest : List (String × String)) (n : ℕ) (found : Bool) :
    walkTargets "" freshUri target ((u, v) :: rest) n found = (u, v, false) := by
  simp [walkTargets]

/-- Once the bookmark has been seen, the walk stops at the next row whose uri
differs from the bookmark. -/
theorem walk_break (bookmark freshUri target u v : String)
    (rest : List (String × String)) (n : ℕ)
    (hb : bookmark ≠ "") (hu : u ≠ bookmark) :
    walkTargets bookmark freshUri target ((u, v) :: rest) n true = (u, v, false) := by
  have hb' : (bookmark == "") = false := beq_eq_false_iff_ne.mpr hb
  have hu' : (u != bookmark) = true := bne_iff_ne.mpr hu
  simp [walkTargets, hb', hu']

/-- Rows before the bookmark are passed over, only incrementing the playlist
count. -/
theorem walk_pass (bookmark freshUri target : String) (hb : bookmark ≠ "") :
    ∀ (pre rest : List (String × String)) (n : ℕ),
      (∀ p ∈ pre, p.1 ≠ bookmark) →
      walkTargets bookmark freshUri target (pre ++ rest) n false =
        walkTargets bookmark freshUri target rest (n + pre.length) false := by
  intro pre
  induction pre with
  | nil =>
    intro rest n _
    simp
  | cons p pre ih =>
    intro rest n hpre
    obtain ⟨u, v⟩ := p
    have hu : u ≠ bookmark := hpre (u, v) (List.mem_cons_self _ _)
    have hb' : (bookmark == "") = false := beq_eq_false_iff_ne.mpr hb
    have hu' : (u == bookmark) = false := beq_eq_false_iff_ne.mpr hu
    show walkTargets bookmark freshUri target ((u, v) :: (pre ++ rest)) n false = _
    simp only [walkTargets, hb', hu', Bool.or_false, Bool.false_and, if_false]
    rw [ih rest (n + 1) (fun q hq => hpre q (List.mem_cons_of_mem _ hq))]
    have harg : n + 1 + pre.length = n + (pre.length + 1) := by omega
    rw [harg]
    rfl

/-- Reaching the bookmark row itself sets the found flag and continues. -/
theorem walk_at_bookmark (bookmark freshUri target v : String)
    (rest : List (String × String)) (n : ℕ) (hb : bookmark ≠ "") :
    walkTargets bookmark freshUri target ((bookmark, v) :: rest) n false =
      walkTargets bookmark freshUri target rest (n + 1) true := by
  have hb' : (bookmark == "") = false := beq_eq_false_iff_ne.mpr hb
  simp [walkTargets, hb']

/-- Claim C6 (amended): over the candidate ordering (existing targets sorted by
name, then the create-new sentinel): an empty bookmark selects the first
existing target; a set bookmark selects the first candidate strictly after it;
reaching the sentinel creates and returns a new collection whose name is the
configured target name, suffixed with a two-digit part number equal to the
number of existing target collections whenever that count is positive — the
count includes pre-existing targets, not only ones created this run. -/
theorem next_target_selection (target bookmark freshUri : String)
    (store : List PlaylistRow) (cs : List (String × String))
    (hcs : sortByName ((store.filter (fun p => p.is_target)).map
      (fun p => (p.uri, p.name))) = cs) :
    (bookmark = "" → ∀ u v rest, cs = (u, v) :: rest →
      get_next_target_playlist target bookmark freshUri store = (u, v, false))
    ∧ (bookmark = "" → cs = [] →
      get_next_target_playlist target bookmark freshUri store =
        (freshUri, target, true))
    ∧ (bookmark ≠ "" → ∀ pre v u' v' rest,
        cs = pre ++ (bookmark, v) :: (u', v') :: rest →
        (∀ p ∈ pre, p.1 ≠ bookmark) → u' ≠ bookmark →
        get_next_target_playlist target bookmark freshUri store = (u', v', false))
    ∧ (bookmark ≠ "" → ∀ pre v, cs = pre ++ [(bookmark, v)] →
        (∀ p ∈ pre, p.1 ≠ bookmark) →
        get_next_target_playlist target bookmark freshUri store =
          (freshUri, target ++ " part " ++ fmt2 (pre.length + 1), true))
    ∧ (bookmark ≠ "" → (∀ p ∈ cs, p.1 ≠ bookmark) →
        get_next_target_playlist target bookmark freshUri store =
          (freshUri, partSuffix target cs.length, true)) := by
  have hwalk : get_next_target_playlist target bookmark freshUri store =
      walkTargets bookmark freshUri target cs 0 false := by
    rw [get_next_target_playlist, hcs]
  refine ⟨?_, ?_, ?_, ?_, ?_⟩
  · intro hb u v rest hcseq
    subst hb
    rw [hwalk, hcseq, walk_empty_bookmark]
  · intro hb hcseq
    subst hb
    rw [hwalk, hcseq]
    show (freshUri, partSuffix target 0, true) = _
    simp [partSuffix, String.append_empty]
  · intro hb pre v u' v' rest hcseq hpre hu'
    rw [hwalk, hcseq, walk_pass bookmark freshUri target hb pre _ 0 hpre,
      walk_at_bookmark bookmark freshUri target v _ _ hb,
      walk_break bookmark freshUri target u' v' rest _ hb hu']
  · intro hb pre v hcseq hpre
    rw [hwalk, hcseq, walk_pass bookmark freshUri target hb pre _ 0 hpre,
      walk_at_bookmark bookmark freshUri target v _ _ hb]
    show (freshUri, partSuffix target (0 + pre.length + 1), true) = _
    have harg : 0 + pre.length + 1 = pre.length + 1 := by omega
    rw [harg]
    simp [partSuffix, String.append_assoc]
  · intro hb hall
    have h := walk_pass bookmark freshUri target hb cs [] 0 hall
    rw [List.append_nil] at h
    rw [hwalk, h]
    show (freshUri, partSuffix target (0 + cs.length), true) = _
    rw [Nat.zero_add]

/-- Witness for C6': on a store with targets "T a" and "T b" (stored unsorted),
an empty bookmark selects "T a", bookmarking "T a" selects "T b", and
bookmarking the last target "T b" creates "T part 02" — two targets already
exist. -/
theorem next_target_selection_witness :
    get_next_target_playlist "T" "" "spotify:playlist:new" demoPlaylists =
      ("spotify:playlist:a", "T a", false)
    ∧ get_next_target_playlist "T" "spotify:playlist:a" "spotify:playlist:new"
        demoPlaylists = ("spotify:playlist:b", "T b", false)
    ∧ get_next_target_playlist "T" "spotify:playlist:b" "spotify:playlist:new"
        demoPlaylists = ("spotify:playlist:new", "T part 02", true) := by
  have hcs : sortByName ((demoPlaylists.filter (fun p => p.is_target)).map
      (fun p => (p.uri, p.name))) =
      [("spotify:playlist:a", "T a"), ("spotify:playlist:b", "T b")] := by decide
  refine ⟨?_, ?_, ?_⟩
  · exact (next_target_selection "T" "" "spotify:playlist:new" demoPlaylists _ hcs).1
      rfl "spotify:playlist:a" "T a" [("spotify:playlist:b", "T b")] rfl
  · exact (next_target_selection "T" "spotify:playlist:a" "spotify:playlist:new"
      demoPlaylists _ hcs).2.2.1 (by decide) [] "T a" "spotify:playlist:b" "T b" []
      rfl (by simp) (by decide)
  · have h := (next_target_selection "T" "spotify:playlist:b" "spotify:playlist:new"
      demoPlaylists _ hcs).2.2.2.1 (by decide) [("spotify:playlist:a", "T a")] "T b"
      rfl (by decide)
    rw [h]
    decide

/-- Counterexample to claim C6 as stated: with one pre-existing target playlist
and its uri as bookmark, the first — and only — target created this run is
already named with the part suffix "part 01": the suffix tracks the count of
existing targets, not the number created this run. -/
theorem next_target_part_suffix_counterexample :
    get_next_target_playlist "T" "spotify:playlist:a" "spotify:playlist:new"
      [⟨"spotify:playlist:a", "T x", true⟩] =
      ("spotify:playlist:new", "T part 01", true)
    ∧ ("T part 01" : String) ≠ "T" := by
  exact ⟨by decide, by decide⟩

/-- With `max_tracks_to_save = 0` the global cap never fires: every row is
consumed and every consumed row is eventually flushed. -/
theorem drainGo_maxSave_zero (maxPer apiLimit : ℕ) :
    ∀ (rows : List String) (st : DrainState),
      ((drainGo 0 maxPer apiLimit rows st).flushed).flatten =
        st.flushed.flatten ++ st.pending ++ rows
      ∧ (drainGo 0 maxPer apiLimit rows st).overall = st.overall + rows.length := by
  intro rows
  induction rows with
  | nil =>
    intro st
    by_cases hp : st.pending.isEmpty
    · have hnil : st.pending = [] := List.isEmpty_iff.mp hp
      simp [drainGo, hp, hnil]
    · simp [drainGo, hp]
  | cons r rs ih =>
    intro st
    simp only [drainGo]
    rw [if_neg (Nat.succ_ne_zero st.overall)]
    by_cases h2 : maxPer ≠ 0 ∧ maxPer ≤ st.inPl + 1 + st.saved
    · rw [if_pos h2]
      refine ⟨?_, ?_⟩
      · rw [(ih _).1]
        simp
      · rw [(ih _).2]
        simp only [List.length_cons]
        omega
    · rw [if_neg h2]
      by_cases h3 : (st.pending ++ [r]).length = apiLimit
      · rw [if_pos h3]
        refine ⟨?_, ?_⟩
        · rw [(ih _).1]
          simp
        · rw [(ih _).2]
          simp only [List.length_cons]
          omega
      · rw [if_neg h3]
        refine ⟨?_, ?_⟩
        · rw [(ih _).1]
          simp
        · rw [(ih _).2]
          simp only [List.length_cons]
          omega

/-- With a positive cap, the drain flushes exactly the next
`maxSave - overall` rows and consumes no row beyond them. -/
theorem drainGo_cap (maxPer apiLimit maxSave : ℕ) :
    ∀ (rows : List String) (st : DrainState), st.overall < maxSave →
      ((drainGo maxSave maxPer apiLimit rows st).flushed).flatten =
        st.flushed.flatten ++ st.pending ++ rows.take (maxSave - st.overall)
      ∧ (drainGo maxSave maxPer apiLimit rows st).overall =
        st.overall + min (maxSave - st.overall) rows.length := by
  intro rows
  induction rows with
  | nil =>
    intro st _
    by_cases hp : st.pending.isEmpty
    · have hnil : st.pending = [] := List.isEmpty_iff.mp hp
      simp [drainGo, hp, hnil]
    · simp [drainGo, hp]
  | cons r rs ih =>
    intro st hlt
    simp only [drainGo]
    by_cases hstop : st.overall + 1 = maxSave
    · rw [if_pos hstop]
      have htake : maxSave - st.overall = 1 := by omega
      refine ⟨?_, ?_⟩
      · show (st.flushed ++ [st.pending ++ [r]]).flatten = _
        rw [htake]
        simp
      · show st.overall + 1 = _
        have hmin : min (maxSave - st.overall) (r :: rs).length = 1 := by
          simp only [List.length_cons]
          omega
        rw [hmin]
    · rw [if_neg hstop]
      have hlt' : st.overall + 1 < maxSave := by omega
      have htk : maxSave - st.overall = (maxSave - (st.overall + 1)) + 1 := by omega
      by_cases h2 : maxPer ≠ 0 ∧ maxPer ≤ st.inPl + 1 + st.saved
      · rw [if_pos h2]
        refine ⟨?_, ?_⟩
        · rw [(ih _ hlt').1, htk]
          simp
        · rw [(ih _ hlt').2]
          simp only [List.length_cons]
          omega
      · rw [if_neg h2]
        by_cases h3 : (st.pending ++ [r]).length = apiLimit
        · rw [if_pos h3]
          refine ⟨?_, ?_⟩
          · rw [(ih _ hlt').1, htk]
            simp
          · rw [(ih _ hlt').2]
            simp only [List.length_cons]
            omega
        · rw [if_neg h3]
          refine ⟨?_, ?_⟩
          · rw [(ih _ hlt').1, htk]
            simp
          · rw [(ih _ hlt').2]
            simp only [List.length_cons]
            omega

/-- Claim C4: with `maxTracksToSave = N > 0` the drain flushes exactly the
first N rows (so at most N tracks ever reach target collections), consuming
`min N rows.length` rows and no later ones; with N = 0 the cap never fires and
the whole sequence is drained and flushed. -/
theorem drain_global_cap (maxPer saved0 : ℕ) (supply : List ℕ)
    (rows : List String) (N : ℕ) :
    (0 < N →
      ((drainRun N maxPer saved0 supply rows).flushed).flatten = rows.take N
      ∧ ((drainRun N maxPer saved0 supply rows).flushed).flatten.length ≤ N
      ∧ (drainRun N maxPer saved0 supply rows).overall = min N rows.length)
    ∧ ((drainRun 0 maxPer saved0 supply rows).flushed).flatten = rows
    ∧ (drainRun 0 maxPer saved0 supply rows).overall = rows.length := by
  constructor
  · intro hN
    have h := drainGo_cap maxPer 95 N rows ⟨[], [], 0, 0, saved0, supply⟩
      (by simpa using hN)
    have h1 : ((drainRun N maxPer saved0 supply rows).flushed).flatten =
        rows.take N := by
      have := h.1
      simpa [drainRun] using this
    have h2 : (drainRun N maxPer saved0 supply rows).overall = min N rows.length := by
      have := h.2
      simpa [drainRun] using this
    refine ⟨h1, ?_, h2⟩
    rw [h1, List.length_take]
    exact min_le_left _ _
  · have h := drainGo_maxSave_zero maxPer 95 rows ⟨[], [], 0, 0, saved0, supply⟩
    exact ⟨by simpa [drainRun] using h.1, by simpa [drainRun] using h.2⟩

/-- Witness for C4: the spec's scenario — cap 3, five unassigned tracks —
flushes exactly tracks 1–3 and consumes no further track. -/
theorem drain_global_cap_witness :
    ((drainRun 3 0 0 [] ["t1", "t2", "t3", "t4", "t5"]).flushed).flatten =
      ["t1", "t2", "t3"]
    ∧ (drainRun 3 0 0 [] ["t1", "t2", "t3", "t4", "t5"]).overall = 3 := by
  have h := (drain_global_cap 0 0 [] ["t1", "t2", "t3", "t4", "t5"] 3).1 (by norm_num)
  refine ⟨?_, ?_⟩
  · rw [h.1]
    rfl
  · rw [h.2.2]
    decide

/-- Upserting into the dedup dictionary never empties it. -/
theorem upsert_ne_nil (d : Dict) (k : String) (v : String × String) :
    upsert d k v ≠ [] := by
  unfold upsert
  by_cases h : d.any (fun e => e.1 == k)
  · rw [if_pos h]
    intro hmap
    rw [List.map_eq_nil_iff] at hmap
    subst hmap
    simp at h
  · rw [if_neg h]
    simp

/-- Inserting artist items preserves a nonempty dictionary. -/
theorem insertArtists_ne_nil (items : List (String × String)) :
    ∀ d : Dict, d ≠ [] → insertArtists d items ≠ [] := by
  induction items with
  | nil =>
    intro d hd
    simpa [insertArtists] using hd
  | cons it its ih =>
    intro d _
    show insertArtists d (it :: its) ≠ []
    simp only [insertArtists, List.foldl_cons]
    exact ih _ (upsert_ne_nil _ _ _)

/-- If some market's artist search returns a nonempty item list, stage A ends
with a nonempty dedup dictionary. -/
theorem stageA_ne_nil (search : String → Option (List (String × String))) :
    ∀ (ms : List String) (d : Dict),
      (∃ m ∈ ms, ∃ items, search m = some items ∧ items ≠ []) →
      stageA search ms d ≠ [] := by
  intro ms
  induction ms with
  | nil =>
    intro d h
    simp at h
  | cons m ms ih =>
    intro d h
    cases hm : search m with
    | none =>
      simp only [stageA, hm]
      apply ih
      obtain ⟨m', hm', items, hsome, hne⟩ := h
      rcases List.mem_cons.mp hm' with rfl | hmem
      · rw [hm] at hsome
        cases hsome
      · exact ⟨m', hmem, items, hsome, hne⟩
    | some items =>
      cases items with
      | nil =>
        simp only [stageA, hm, List.isEmpty_nil, if_true]
        apply ih
        obtain ⟨m', hm', items', hsome, hne⟩ := h
        rcases List.mem_cons.mp hm' with rfl | hmem
        · rw [hm] at hsome
          injection hsome with h'
          exact absurd h'.symm hne
        · exact ⟨m', hmem, items', hsome, hne⟩
      | cons it its =>
        simp only [stageA, hm, List.isEmpty_cons, if_false]
        show insertArtists d (it :: its) ≠ []
        simp only [insertArtists, List.foldl_cons]
        exact insertArtists_ne_nil its _ (upsert_ne_nil _ _ _)

/-- Claim C8: whenever stage 1 (direct artist search) returns at least one
artist in some market, stage 2 (track-derived fallback) performs zero
track-search calls. -/
theorem discovery_stage_precedence (search : String → Option (List (String × String)))
    (trackPage : ℕ → Option (List (List ArtistCredit)))
    (markets : List String) (maxTrackPages : ℕ)
    (h : ∃ m ∈ markets, ∃ items, search m = some items ∧ items ≠ []) :
    (discoverAB search trackPage markets maxTrackPages).2 = 0 := by
  have hne := stageA_ne_nil search markets [] h
  have hempty : (stageA search markets []).isEmpty = false :=
    List.isEmpty_eq_false.mpr hne
  simp [discoverAB, hempty]

/-- Witness for C8: a search that finds one artist in market BE makes stage 2
perform zero track-search calls. -/
theorem discovery_stage_precedence_witness :
    (discoverAB demoSearch demoTrackPage ["BE", "US"] 20).2 = 0 := by
  apply discovery_stage_precedence
  refine ⟨"BE", by simp, [("Artist One", "spotify:artist:1")], ?_, by simp⟩
  rfl

end SpotifyRun
